import Mathlib

/-!
Verification of the Gopher repair engine against its specification.

The development shallowly embeds the context-construction and
round-scheduling core of the repository: the context stitcher and
skeleton renderer (`src/Gopher/analysis/dual_layer_conetxt.py`,
`src/Gopher/analysis/PCSC.py`), the dependency slicer
(`src/Gopher/analysis/FDS.py`), the token-budget allocator
(`src/Gopher/LLM/token_manager.py`), the retry wrapper
(`src/Gopher/LLM/client.py`) and the round scheduler
(`src/Gopher/workflow.py`).  Python strings are modelled by `String`,
Python `set` values by `Finset` or membership lists, Python `int` by
`Int`, and fallible code by `Except`/`Option`.  External collaborators
(the Joern query engine, the completion service, the sandbox and the
tokenizer) enter the model as explicit parameters or oracles.
-/

namespace Gopher

/-! ## Python string primitives -/

/-- Characters that `str.splitlines` treats as line boundaries
(the ASCII ones plus NEL and the two Unicode separators). -/
def isLineBreakChar (c : Char) : Bool :=
  c = '\n' || c = '\r' || c = '\x0b' || c = '\x0c' ||
  c = '\x1c' || c = '\x1d' || c = '\x1e' || c = '\x85' ||
  c = '\u2028' || c = '\u2029'

/-- Characters stripped by `str.strip` / `str.lstrip` with no argument
(Python treats a character as whitespace iff `str.isspace`; the ASCII
portion plus NEL and NBSP is modelled). -/
def isPySpace (c : Char) : Bool :=
  c = ' ' || c = '\t' || c = '\n' || c = '\r' || c = '\x0b' || c = '\x0c' ||
  c = '\x1c' || c = '\x1d' || c = '\x1e' || c = '\x1f' || c = '\x85' || c = '\xa0'

/-- Worker for `pySplitLines`: accumulates the current line (reversed)
and splits at each line boundary, treating CRLF as one boundary. -/
def splitLinesAux : List Char → List Char → List (List Char)
  | acc, [] => if acc.isEmpty then [] else [acc.reverse]
  | acc, '\r' :: '\n' :: rest => acc.reverse :: splitLinesAux [] rest
  | acc, c :: rest =>
    if isLineBreakChar c then acc.reverse :: splitLinesAux [] rest
    else splitLinesAux (c :: acc) rest

/-- Python `str.splitlines()`: the list of lines without their
terminators; a trailing terminator produces no extra empty line. -/
def pySplitLines (s : String) : List String :=
  (splitLinesAux [] s.toList).map (fun cs => String.mk cs)

/-- Python `"\n".join(parts)`. -/
def joinNL (parts : List String) : String :=
  String.intercalate "\n" parts

/-- Python `str.strip()` with no argument: drop whitespace from both ends. -/
def pyStrip (s : String) : String :=
  String.mk (((s.toList.dropWhile isPySpace).reverse.dropWhile isPySpace).reverse)

/-- Leading-whitespace prefix of a line; this is what
`line[:len(line) - len(line.lstrip())]` evaluates to. -/
def indentOf (line : String) : String :=
  String.mk (line.toList.takeWhile isPySpace)

end Gopher

namespace Gopher

/-! ## Context stitcher (`ContextBuilder._stitch_code`, dual_layer_conetxt.py)
and skeleton renderer (`PeripheralContextExtractor._create_skeleton`, PCSC.py) -/

/-- Collapsible line range as produced by `_parse_ranges`: the Python
dict keys are `start` and `end`; `end` is a Lean keyword, so the second
field is named `stop`. -/
structure HideRange where
  start : Int
  stop : Int
deriving DecidableEq, Repr

/-- Pointwise form of the suppression marking common to
`_stitch_code` (lines 55-65) and `_create_skeleton` (lines 83-90):
both loops mark the 0-based index `i - 1` for every `i` in
`range(start + 1, end)` of a range with `end > start`, restricted to
valid indices.  An index `idx` therefore ends up marked iff some range
satisfies `start < idx + 1 < end`. -/
def suppAt (rangesToHide : List HideRange) (idx : Nat) : Bool :=
  rangesToHide.any fun r =>
    r.stop > r.start && r.start < (idx : Int) + 1 && (idx : Int) + 1 < r.stop

/-- Keep decision of the stitcher loop (`_stitch_code` lines 72-79): a
line is kept unless it is suppressible and its 1-based number is not in
the slice-line set. -/
def shouldKeepLine (rangesToHide : List HideRange) (sliceLines : List Int)
    (idx : Nat) : Bool :=
  !(suppAt rangesToHide idx) || sliceLines.contains ((idx : Int) + 1)

/-- Placeholder text appended by `_stitch_code` after the indentation. -/
def hiddenMarker : String := "# ... (irrelevant code hidden)"

/-- Emission loop of `_stitch_code` (lines 67-89): visible lines are
emitted verbatim; the first hidden line after a visible one emits a
single placeholder carrying that hidden line's indentation, and
`last_was_gap` suppresses further placeholders until the next visible
line. -/
def stitchAux (rangesToHide : List HideRange) (sliceLines : List Int) :
    Nat → Bool → List String → List String
  | _, _, [] => []
  | i, lastWasGap, line :: rest =>
    if shouldKeepLine rangesToHide sliceLines i then
      line :: stitchAux rangesToHide sliceLines (i + 1) false rest
    else if lastWasGap then
      stitchAux rangesToHide sliceLines (i + 1) true rest
    else
      (indentOf line ++ hiddenMarker) ::
        stitchAux rangesToHide sliceLines (i + 1) true rest

/-- Embedding of `ContextBuilder._stitch_code`. -/
def stitchCode (sourceCode : String) (sliceLines : List Int)
    (rangesToHide : List HideRange) : String :=
  joinNL (stitchAux rangesToHide sliceLines 0 false (pySplitLines sourceCode))

/-- Placeholder text appended by `_create_skeleton` after the indentation. -/
def skelMarker : String := "# ... existing code ..."

/-- Placeholder step of `_create_skeleton` (lines 101-109): after an
emitted line of index `idx`, the first range with `idx == start - 1`
and `end > start` inserts one placeholder (the inner `break` stops at
the first match); its indentation is that of `lines[idx + 1]` when such
a line exists and empty otherwise. -/
def skelPlaceholderAfter (allLines : List String) (rangesToHide : List HideRange)
    (idx : Nat) : Option String :=
  match rangesToHide.find? (fun r => (idx : Int) = r.start - 1 && r.stop > r.start) with
  | some _ =>
    some ((match allLines.get? (idx + 1) with
           | some nextLine => indentOf nextLine
           | none => "") ++ skelMarker)
  | none => none

/-- Emission loop of `_create_skeleton` (lines 95-109): suppressed
lines are skipped; each emitted line is followed by the placeholder of
`skelPlaceholderAfter` when one applies. -/
def skelAux (allLines : List String) (rangesToHide : List HideRange) :
    Nat → List String → List String
  | _, [] => []
  | i, line :: rest =>
    if suppAt rangesToHide i then
      skelAux allLines rangesToHide (i + 1) rest
    else
      match skelPlaceholderAfter allLines rangesToHide i with
      | some ph => line :: ph :: skelAux allLines rangesToHide (i + 1) rest
      | none => line :: skelAux allLines rangesToHide (i + 1) rest

/-- Embedding of `PeripheralContextExtractor._create_skeleton`.  The
`placeholder_insertion_points` dict computed at lines 81-93 of the
source is never read afterwards and is omitted.  An empty range list
returns the source unchanged (line 75-76). -/
def createSkeleton (sourceCode : String) (rangesToHide : List HideRange) : String :=
  if rangesToHide.isEmpty then sourceCode
  else joinNL (skelAux (pySplitLines sourceCode) rangesToHide 0 (pySplitLines sourceCode))

end Gopher

namespace Gopher

/-! ## Run-based rendering specification

Specification-level renderer used to state what the stitcher emission
loop does to maximal runs of hidden lines: the hidden flag of each line
is computed first, and each maximal run of flagged lines becomes one
placeholder carrying the indentation of the run's first line. -/

/-- Pairs each line with its hidden flag (the negation of the
stitcher's keep decision), starting from index `i`. -/
def annotateHidden (rangesToHide : List HideRange) (sliceLines : List Int) :
    List String → Nat → List (String × Bool)
  | [], _ => []
  | line :: rest, i =>
    (line, !(shouldKeepLine rangesToHide sliceLines i)) ::
      annotateHidden rangesToHide sliceLines rest (i + 1)

/-- Run-based collapse: a visible line is emitted verbatim; a hidden
line opens a maximal hidden run, which is replaced by exactly one
placeholder carrying the indentation of that first hidden line. -/
def collapseRunsSpec : List (String × Bool) → List String
  | [] => []
  | (line, false) :: rest => line :: collapseRunsSpec rest
  | (line, true) :: rest =>
    (indentOf line ++ hiddenMarker) ::
      collapseRunsSpec (rest.dropWhile (fun p => p.2))
termination_by l => l.length
decreasing_by
  · simp
  · have h : (List.dropWhile (fun p => p.2) rest).length ≤ rest.length :=
      List.Sublist.length_le (List.dropWhile_sublist _)
    simp only [List.length_cons]
    omega

/-- Equation of `collapseRunsSpec` on the empty list. -/
@[simp] theorem collapseRunsSpec_nil : collapseRunsSpec [] = [] := by
  rw [collapseRunsSpec]

/-- Equation of `collapseRunsSpec` on a visible line. -/
@[simp] theorem collapseRunsSpec_cons_false (line : String)
    (rest : List (String × Bool)) :
    collapseRunsSpec ((line, false) :: rest) = line :: collapseRunsSpec rest := by
  rw [collapseRunsSpec]

/-- Equation of `collapseRunsSpec` on the first line of a hidden run. -/
@[simp] theorem collapseRunsSpec_cons_true (line : String)
    (rest : List (String × Bool)) :
    collapseRunsSpec ((line, true) :: rest) =
      (indentOf line ++ hiddenMarker) ::
        collapseRunsSpec (rest.dropWhile (fun p => p.2)) := by
  rw [collapseRunsSpec]

/-- Emission loop and run-based collapse agree, in both placeholder
states of the loop. -/
theorem stitchAux_eq_collapseRunsSpec (rangesToHide : List HideRange)
    (sliceLines : List Int) :
    ∀ (lines : List String) (i : Nat),
      stitchAux rangesToHide sliceLines i false lines =
        collapseRunsSpec (annotateHidden rangesToHide sliceLines lines i) ∧
      stitchAux rangesToHide sliceLines i true lines =
        collapseRunsSpec
          ((annotateHidden rangesToHide sliceLines lines i).dropWhile (fun p => p.2)) := by
  intro lines
  induction lines with
  | nil => intro i; simp [stitchAux, annotateHidden, collapseRunsSpec]
  | cons line rest ih =>
    intro i
    have h1 := (ih (i + 1)).1
    have h2 := (ih (i + 1)).2
    cases hk : shouldKeepLine rangesToHide sliceLines i with
    | true =>
      refine ⟨?_, ?_⟩ <;>
        simp [stitchAux, hk, annotateHidden, collapseRunsSpec, List.dropWhile, h1]
    | false =>
      refine ⟨?_, ?_⟩ <;>
        simp [stitchAux, hk, annotateHidden, collapseRunsSpec, List.dropWhile, h2]

end Gopher

namespace Gopher

/-! ## Stitching with an empty range list (claim C4) -/

/-- With no ranges, no line is suppressible, so the emission loop keeps
every line verbatim. -/
theorem stitchAux_nil_ranges (sliceLines : List Int) :
    ∀ (lines : List String) (i : Nat),
      stitchAux [] sliceLines i false lines = lines := by
  intro lines
  induction lines with
  | nil => intro i; simp [stitchAux]
  | cons line rest ih =>
    intro i
    simp [stitchAux, shouldKeepLine, suppAt, ih (i + 1)]

/-- Claim C4 (amended): with an empty range list the skeleton renderer
returns the source verbatim, while the mixed stitcher returns the
newline-join of the source's split lines — equal to the source only
when the source itself is such a join (in particular not when it ends
with a line terminator). -/
theorem stitch_empty_ranges (sourceCode : String) (sliceLines : List Int) :
    createSkeleton sourceCode [] = sourceCode ∧
    stitchCode sourceCode sliceLines [] = joinNL (pySplitLines sourceCode) := by
  constructor
  · simp [createSkeleton]
  · simp [stitchCode, stitchAux_nil_ranges]

/-- Claim C4 (counterexample): on a source with a trailing newline the
mixed stitcher's rendering for an empty range list is not verbatim. -/
theorem stitch_empty_ranges_cex :
    stitchCode "a\n" [] [] = "a" ∧ stitchCode "a\n" [] [] ≠ "a\n" := by
  constructor
  · rfl
  · decide

/-! ## Placeholder indentation and run collapsing (claim C5) -/

/-- Claim C5 (amended): every rendering of the mixed stitcher equals
the run-based collapse in which each maximal run of consecutively
hidden lines is replaced by exactly one placeholder line, and that
placeholder carries the indentation of the first hidden line of the
run (not of the visible line that follows it). -/
theorem stitchCode_eq_runCollapse (sourceCode : String) (sliceLines : List Int)
    (rangesToHide : List HideRange) :
    stitchCode sourceCode sliceLines rangesToHide =
      joinNL (collapseRunsSpec
        (annotateHidden rangesToHide sliceLines (pySplitLines sourceCode) 0)) :=
  congrArg joinNL
    (stitchAux_eq_collapseRunsSpec rangesToHide sliceLines (pySplitLines sourceCode) 0).1

/-- Claim C5 (counterexample): hiding the middle line of
`"A\n  b\n    C"` produces a placeholder indented like the hidden line
`"  b"`, not like the following visible line `"    C"`; the rendering
the claim predicts (placeholder indented four spaces) differs from the
actual one. -/
theorem stitch_placeholder_indent_cex :
    stitchCode "A\n  b\n    C" [] [⟨1, 3⟩] =
      "A\n  # ... (irrelevant code hidden)\n    C" ∧
    stitchCode "A\n  b\n    C" [] [⟨1, 3⟩] ≠
      "A\n    # ... (irrelevant code hidden)\n    C" := by
  constructor
  · rfl
  · decide

/-! ## The hidden-line characterisation (claim C6) -/

/-- Claim C6 (amended): a 1-based line `i` is hidden by the stitcher
iff some range with `end > start` strictly contains it
(`start < i < end`) and `i` is not in the must-keep set.  Ranges with
`end <= start` hide nothing, and a range never hides its own boundary
lines; a boundary line can still be hidden when it lies strictly
inside a different range. -/
theorem stitch_hidden_iff (rangesToHide : List HideRange) (sliceLines : List Int)
    (i : Nat) (hi : 1 ≤ i) :
    shouldKeepLine rangesToHide sliceLines (i - 1) = false ↔
      ((∃ r ∈ rangesToHide, r.stop > r.start ∧ r.start < (i : Int) ∧ (i : Int) < r.stop) ∧
        (i : Int) ∉ sliceLines) := by
  have hcast : ((i - 1 : Nat) : Int) + 1 = (i : Int) := by omega
  simp only [shouldKeepLine, Bool.or_eq_false_iff, Bool.not_eq_false', suppAt,
    List.any_eq_true, hcast, Bool.and_eq_true, decide_eq_true_eq,
    List.elem_eq_mem, decide_eq_false_iff_not]
  constructor
  · rintro ⟨⟨r, hr, hcond⟩, hmem⟩
    exact ⟨⟨r, hr, by tauto⟩, by simpa using hmem⟩
  · rintro ⟨⟨r, hr, h1, h2, h3⟩, hmem⟩
    exact ⟨⟨r, hr, by tauto⟩, by simpa using hmem⟩

end Gopher

namespace Gopher

/-- Claim C6 (counterexample): with the overlapping ranges
`{start 1, end 5}` and `{start 2, end 8}` the line 5 — a boundary
(`end`) line of the first range — lies strictly inside the second
range and is hidden, so boundary lines of a range are not always shown
verbatim; the whole block from line 2 to line 7 collapses to one
placeholder. -/
theorem stitch_boundary_hidden_cex :
    shouldKeepLine [⟨1, 5⟩, ⟨2, 8⟩] [] 4 = false ∧
    stitchCode "L1\nL2\nL3\nL4\nL5\nL6\nL7\nL8" [] [⟨1, 5⟩, ⟨2, 8⟩] =
      "L1\n# ... (irrelevant code hidden)\nL8" := by
  constructor
  · decide
  · rfl

/-! ## Empty collapsible ranges in the skeleton renderer (claim C10) -/

/-- Ranges with `end = start + 1` suppress nothing: the suppression
interval `start < i < end` is empty. -/
theorem suppAt_singleton_empty_range (r : HideRange) (h : r.stop = r.start + 1)
    (idx : Nat) : suppAt [r] idx = false := by
  simp only [suppAt, List.any_cons, List.any_nil, Bool.or_false, h]
  by_cases h1 : r.start < (idx : Int) + 1 <;> simp <;> omega

/-- Behaviour of the skeleton emission loop for a single range that
suppresses nothing: every line is kept, and one placeholder is
inserted after the line whose 0-based index `p` satisfies
`p = start - 1` when that index is in view. -/
theorem skelAux_singleton_insert (allLines : List String) (r : HideRange)
    (p : Nat) (hp : (p : Int) = r.start - 1) (hstop : r.stop > r.start)
    (hno : ∀ idx, suppAt [r] idx = false) :
    ∀ (lines : List String) (i : Nat),
      skelAux allLines [r] i lines =
        if i ≤ p ∧ p < i + lines.length then
          lines.take (p - i + 1) ++
            ((match allLines.get? (p + 1) with
              | some nextLine => indentOf nextLine
              | none => "") ++ skelMarker) :: lines.drop (p - i + 1)
        else lines := by
  intro lines
  induction lines with
  | nil =>
    intro i
    simp [skelAux]
  | cons line rest ih =>
    intro i
    by_cases hip : i = p
    · subst hip
      have hfind : skelPlaceholderAfter allLines [r] i =
          some ((match allLines.get? (i + 1) with
                 | some nextLine => indentOf nextLine
                 | none => "") ++ skelMarker) := by
        simp [skelPlaceholderAfter, List.find?, hp, hstop]
      rw [skelAux, hno i, hfind]
      simp only [Bool.false_eq_true, if_false]
      have hcond : i ≤ i ∧ i < i + (line :: rest).length := by
        simp
      rw [if_pos hcond]
      have hrest : skelAux allLines [r] (i + 1) rest = rest := by
        rw [ih (i + 1), if_neg]
        omega
      simp [hrest]
    · have hfind : skelPlaceholderAfter allLines [r] i = none := by
        have : ((i : Int) = r.start - 1) = False := by
          simp only [eq_iff_iff, iff_false]
          omega
        simp [skelPlaceholderAfter, List.find?, this]
      rw [skelAux, hno i, hfind]
      simp only [Bool.false_eq_true, if_false]
      rw [ih (i + 1)]
      by_cases hc : i ≤ p ∧ p < i + (line :: rest).length
      · have hc' : i + 1 ≤ p ∧ p < (i + 1) + rest.length := by
          simp only [List.length_cons] at hc
          omega
        rw [if_pos hc', if_pos hc]
        have htake : p - i + 1 = (p - (i + 1) + 1) + 1 := by omega
        rw [htake]
        simp
      · have hc' : ¬(i + 1 ≤ p ∧ p < (i + 1) + rest.length) := by
          simp only [List.length_cons] at hc
          omega
        rw [if_neg hc', if_neg hc]

end Gopher

namespace Gopher

/-- Claim C10: for a structural range with `end = start + 1` whose
start line lies inside the file, the skeleton renderer hides no source
line for that range, yet still inserts one placeholder immediately
after line `start` — a placeholder that replaces an empty run of
hidden lines.  (The guarded dict `placeholder_insertion_points`, which
would have excluded such ranges, is computed but never used; the
emission loop checks only `end > start`.) -/
theorem skeleton_empty_range_placeholder (src : String) (r : HideRange)
    (h1 : r.stop = r.start + 1) (h2 : 1 ≤ r.start)
    (h3 : r.start ≤ ((pySplitLines src).length : Int)) :
    (∀ idx, suppAt [r] idx = false) ∧
    ∃ ph, skelPlaceholderAfter (pySplitLines src) [r] (r.start.toNat - 1) = some ph ∧
      createSkeleton src [r] =
        joinNL ((pySplitLines src).take r.start.toNat ++
          ph :: (pySplitLines src).drop r.start.toNat) := by
  have hno : ∀ idx, suppAt [r] idx = false := suppAt_singleton_empty_range r h1
  have hstop : r.stop > r.start := by omega
  refine ⟨hno, ?_⟩
  set lines := pySplitLines src with hlines
  set p : Nat := r.start.toNat - 1 with hpdef
  have hp : (p : Int) = r.start - 1 := by omega
  have hlen : 1 ≤ lines.length := by omega
  have hfind : skelPlaceholderAfter lines [r] p =
      some ((match lines.get? (p + 1) with
             | some nextLine => indentOf nextLine
             | none => "") ++ skelMarker) := by
    simp [skelPlaceholderAfter, List.find?, hp, hstop]
  refine ⟨_, hfind, ?_⟩
  have hne : ¬([r] : List HideRange).isEmpty := by simp
  rw [createSkeleton, if_neg (by simp)]
  rw [← hlines]
  rw [skelAux_singleton_insert lines r p hp hstop hno lines 0]
  have hcond : 0 ≤ p ∧ p < 0 + lines.length := by omega
  rw [if_pos hcond]
  have hidx : p - 0 + 1 = r.start.toNat := by omega
  rw [hidx]

/-- Claim C10 (witness): the range `{start 1, end 2}` on a three-line
source hides nothing and inserts a placeholder after line 1. -/
theorem skeleton_empty_range_placeholder_witness :
    (∀ idx, suppAt [⟨1, 2⟩] idx = false) ∧
    ∃ ph, skelPlaceholderAfter (pySplitLines "l1\n  l2\nl3") [⟨1, 2⟩] 0 = some ph ∧
      createSkeleton "l1\n  l2\nl3" [⟨1, 2⟩] =
        joinNL ((pySplitLines "l1\n  l2\nl3").take 1 ++
          ph :: (pySplitLines "l1\n  l2\nl3").drop 1) :=
  skeleton_empty_range_placeholder "l1\n  l2\nl3" ⟨1, 2⟩ (by decide) (by decide)
    (by decide)

end Gopher

namespace Gopher

/-- Claim C6 (witness): for the single range `{start 2, end 6}` and an
empty must-keep set, line 3 is hidden, and the characterisation agrees. -/
theorem stitch_hidden_iff_witness :
    shouldKeepLine [⟨2, 6⟩] [] (3 - 1) = false ↔
      ((∃ r ∈ ([⟨2, 6⟩] : List HideRange),
          r.stop > r.start ∧ r.start < (3 : Int) ∧ (3 : Int) < r.stop) ∧
        ((3 : Nat) : Int) ∉ ([] : List Int)) :=
  stitch_hidden_iff [⟨2, 6⟩] [] 3 (by decide)

end Gopher

namespace Gopher

/-! ## Token-budget allocator (`TokenManager`, token_manager.py) -/

/-- Token manager state: the context-window limit fixed by
`__init__` together with the encoder obtained from tiktoken.  The
tokenizer is an external collaborator, so `encode` and `decode` are
fields of the model; `charTokenManager` below instantiates them. -/
structure TokenManager where
  maxContextLength : Nat
  encode : String → List Nat
  decode : List Nat → String

/-- Lookup table `MODEL_LIMITS` (the active, uncommented one). -/
def MODEL_LIMITS : List (String × Nat) :=
  [("gpt-3.5-turbo", 10000), ("gemini-2.0-flash", 10000), ("deepseek-chat", 12000),
   ("qwen2.5-coder:7b", 12000), ("qwen2.5-coder:32b", 12000), ("llama3:8b", 8000)]

/-- Prefix test on character lists, used to model Python's `in`. -/
def charsPrefixOf : List Char → List Char → Bool
  | [], _ => true
  | _ :: _, [] => false
  | a :: as, b :: bs => a = b && charsPrefixOf as bs

/-- Substring test modelling Python's `key in model_name`. -/
def charsSubstring (needle : List Char) : List Char → Bool
  | [] => needle.isEmpty
  | b :: bs => charsPrefixOf needle (b :: bs) || charsSubstring needle bs

/-- Python `str.lower()` restricted to character-wise lowering (all
table keys are ASCII). -/
def pyLower (s : String) : String := String.mk (s.toList.map Char.toLower)

/-- Embedding of `TokenManager._get_model_limit`: the first table key
that is a substring of the lowercased model name wins; unmatched
models get 4096. -/
def getModelLimit (modelName : String) : Nat :=
  match MODEL_LIMITS.find? (fun kv => charsSubstring kv.1.toList (pyLower modelName).toList) with
  | some kv => kv.2
  | none => 4096

/-- Reserve `OUTPUT_RESERVE` for the model's output. -/
def OUTPUT_RESERVE : Nat := 1024

/-- Embedding of `TokenManager.count_tokens`. -/
def countTokens (tm : TokenManager) (text : String) : Nat :=
  if text = "" then 0 else (tm.encode text).length

/-- Embedding of `TokenManager._truncate_text`: non-positive budgets
give the empty string; otherwise the encoded token list is cut to
`maxTokens` units (tail for `fromEnd`, head otherwise) and decoded. -/
def truncateText (tm : TokenManager) (text : String) (maxTokens : Int)
    (fromEnd : Bool) : String :=
  if maxTokens ≤ 0 then ""
  else
    let tokens := tm.encode text
    if (tokens.length : Int) ≤ maxTokens then text
    else if fromEnd then tm.decode (tokens.drop (tokens.length - maxTokens.toNat))
    else tm.decode (tokens.take maxTokens.toNat)

/-- Safe limit of `optimize_prompt` line 69. -/
def safeLimit (tm : TokenManager) : Int :=
  (tm.maxContextLength : Int) - (OUTPUT_RESERVE : Int)

/-- Budget left for the context part, `optimize_prompt` line 70. -/
def availableForContext (tm : TokenManager) (staticParts : List String)
    (feedbackPart : String) : Int :=
  safeLimit tm - (countTokens tm (joinNL staticParts) : Int) -
    (countTokens tm feedbackPart : Int)

/-- Truncation notice appended by `optimize_prompt` line 90. -/
def truncNotice : String := "\n... (Context truncated due to length) ..."

/-- Context-fitting tail of `optimize_prompt` (lines 84-92): the
context is returned unchanged when it fits, otherwise truncated to the
budget with the truncation notice appended. -/
def optimizePromptCore (tm : TokenManager) (dynamicContext : String)
    (available : Int) : String :=
  if (countTokens tm dynamicContext : Int) > available then
    truncateText tm dynamicContext available false ++ truncNotice
  else dynamicContext

/-- Embedding of `TokenManager.optimize_prompt` (lines 60-92),
including the feedback-truncation fallback when the budget is
negative. -/
def optimizePrompt (tm : TokenManager) (staticParts : List String)
    (dynamicContext : String) (feedbackPart : String) : String :=
  let staticText := joinNL staticParts
  let available := availableForContext tm staticParts feedbackPart
  if available < 0 then
    let feedbackBudget : Int :=
      max 0 (safeLimit tm - (countTokens tm staticText : Int))
    let feedbackTrunc := truncateText tm feedbackPart feedbackBudget true
    let available2 := safeLimit tm - (countTokens tm staticText : Int) -
      (countTokens tm feedbackTrunc : Int)
    if available2 < 0 then staticText
    else optimizePromptCore tm dynamicContext available2
  else optimizePromptCore tm dynamicContext available

/-- Modelled from the spec: the tiktoken encoder attached to the
model name is an external collaborator (spec section 4.4 only requires
a fixed token-count function with exact truncation on encoded units);
it is instantiated as a character-level tokenizer in which every
character is one token and decoding is the inverse map. -/
def charTokenManager (modelName : String) : TokenManager :=
  ⟨getModelLimit modelName,
   fun s => s.toList.map Char.toNat,
   fun ts => String.mk (ts.map Char.ofNat)⟩

end Gopher

namespace Gopher

/-- Projection of the character-level encoder. -/
theorem charTokenManager_encode (modelName : String) (s : String) :
    (charTokenManager modelName).encode s = s.toList.map Char.toNat := rfl

/-- Projection of the character-level decoder. -/
theorem charTokenManager_decode (modelName : String) (ts : List Nat) :
    (charTokenManager modelName).decode ts = String.mk (ts.map Char.ofNat) := rfl

/-- Length of the character list of a string is its length. -/
theorem toList_length (s : String) : s.toList.length = s.length := rfl

/-- Token counting under the character-level tokenizer is string length. -/
theorem countTokens_char (modelName : String) (s : String) :
    countTokens (charTokenManager modelName) s = s.length := by
  by_cases h : s = ""
  · subst h; simp [countTokens]
  · rw [countTokens, if_neg h, charTokenManager_encode, List.length_map, toList_length]

/-- Head truncation under the character-level tokenizer keeps the
first `maxTokens` characters. -/
theorem truncateText_char (modelName : String) (s : String) (k : Int) :
    truncateText (charTokenManager modelName) s k false =
      if k ≤ 0 then ""
      else if (s.length : Int) ≤ k then s
      else String.mk (s.toList.take k.toNat) := by
  have hlen : ((s.toList.map Char.toNat).length : Int) = (s.length : Int) := by
    rw [List.length_map, toList_length]
  by_cases h0 : k ≤ 0
  · simp [truncateText, h0]
  · by_cases h1 : (s.length : Int) ≤ k
    · rw [truncateText, if_neg h0, charTokenManager_encode, if_pos (by omega),
        if_neg h0, if_pos h1]
    · rw [truncateText, if_neg h0, charTokenManager_encode, if_neg (by omega),
        if_neg (by simp), charTokenManager_decode, if_neg h0, if_neg h1]
      rw [← List.map_take, List.map_map]
      congr 1
      have hcomp : (Char.ofNat ∘ Char.toNat) = id := by
        funext c; simp [Char.ofNat_toNat]
      simp [hcomp]

/-- Claim C1 (amended): when `available_for_context` is non-negative,
the context kept before the truncation notice never exceeds the
budget, so the string returned by `optimize_prompt` exceeds
`available_for_context` by at most the token count of the appended
truncation notice; the full result is not bounded by the budget
itself. -/
theorem optimizePrompt_budget (modelName : String) (staticParts : List String)
    (dynamicContext feedbackPart : String)
    (h : 0 ≤ availableForContext (charTokenManager modelName) staticParts feedbackPart) :
    countTokens (charTokenManager modelName)
        (optimizePrompt (charTokenManager modelName) staticParts dynamicContext feedbackPart) ≤
      (availableForContext (charTokenManager modelName) staticParts feedbackPart).toNat +
        countTokens (charTokenManager modelName) truncNotice := by
  set tm := charTokenManager modelName with htm
  set a := availableForContext tm staticParts feedbackPart with ha
  rw [optimizePrompt, ← ha, if_neg (by omega)]
  rw [optimizePromptCore]
  by_cases hbig : (countTokens tm dynamicContext : Int) > a
  · rw [if_pos hbig]
    rw [countTokens_char, String.length_append, htm, truncateText_char]
    by_cases h0 : a ≤ 0
    · simp only [if_pos h0]
      simp [countTokens_char]
    · rw [if_neg h0]
      have hlen : ¬((dynamicContext.length : Int) ≤ a) := by
        rw [htm, countTokens_char] at hbig
        omega
      rw [if_neg hlen]
      have htake : (String.mk (dynamicContext.toList.take a.toNat)).length = a.toNat := by
        show (dynamicContext.toList.take a.toNat).length = a.toNat
        rw [List.length_take]
        have : a.toNat ≤ dynamicContext.toList.length := by
          have : dynamicContext.toList.length = dynamicContext.length := rfl
          omega
        omega
      rw [htake, countTokens_char]
  · rw [if_neg hbig]
    rw [countTokens_char] at hbig ⊢
    omega

/-- Claim C1 (amended, witness): a context that fits the budget of the
default 4096-token window is returned within budget plus notice. -/
theorem optimizePrompt_budget_witness :
    countTokens (charTokenManager "m")
        (optimizePrompt (charTokenManager "m") [] "abc" "") ≤
      (availableForContext (charTokenManager "m") [] "").toNat +
        countTokens (charTokenManager "m") truncNotice :=
  optimizePrompt_budget "m" [] "abc" "" (by decide)

end Gopher

namespace Gopher

/-- Claim C1 (counterexample): with the default 4096-token window
(`safe_limit` 3072), no static parts and no feedback,
`available_for_context` is 3072 and non-negative, yet a 3073-token
context is truncated to exactly 3072 tokens and the truncation notice
is appended afterwards, so the returned string counts 3114 tokens —
more than the budget. -/
theorem optimizePrompt_exceeds_budget_cex :
    availableForContext (charTokenManager "m") [] "" = 3072 ∧
    (3072 : Int) <
      (countTokens (charTokenManager "m")
        (optimizePrompt (charTokenManager "m") []
          (String.mk (List.replicate 3073 'a')) "") : Int) := by
  have hava : availableForContext (charTokenManager "m") [] "" = 3072 := by decide
  refine ⟨hava, ?_⟩
  have hctx : countTokens (charTokenManager "m") (String.mk (List.replicate 3073 'a')) = 3073 := by
    rw [countTokens_char]
    show (List.replicate 3073 'a').length = 3073
    rw [List.length_replicate]
  have hmklen : (String.mk (List.replicate 3073 'a')).length = 3073 := by
    show (List.replicate 3073 'a').length = 3073
    rw [List.length_replicate]
  rw [optimizePrompt, hava, if_neg (by omega), optimizePromptCore,
    if_pos (by rw [hctx]; omega)]
  rw [countTokens_char, String.length_append, truncateText_char,
    if_neg (by omega), if_neg (by rw [hmklen]; omega)]
  have htail : truncNotice.length = 42 := by decide
  have htake : (String.mk ((String.mk (List.replicate 3073 'a')).toList.take (3072 : Int).toNat)).length = 3072 := by
    show ((List.replicate 3073 'a').take (3072 : Int).toNat).length = 3072
    rw [List.length_take, List.length_replicate]
    omega
  rw [htake, htail]
  omega

end Gopher

namespace Gopher

/-! ## Dependency slicer (`FocusedSlicer`, FDS.py)

The Joern query engine is an external collaborator: its raw textual
output (or the exception its invocation raises) enters the model as an
`Except Unit String` oracle.  Python's `json.loads` is modelled by a
parser for the JSON fragment that can appear in these line lists:
`null`, booleans, integers, strings and (nested) arrays; floats,
objects and `\u` escapes are outside the modelled fragment, so a line
containing them parses as a decode error. -/

/-- Python values produced by the modelled `json.loads`. -/
inductive PyVal where
  | vNone : PyVal
  | vBool : Bool → PyVal
  | vInt : Int → PyVal
  | vStr : String → PyVal
  | vList : List PyVal → PyVal

/-- Identity test against Python's `None`, modelling `x is not None`
in the set comprehension of `_parse_joern_list_output`. -/
def PyVal.isNone : PyVal → Bool
  | PyVal.vNone => true
  | _ => false

/-- JSON inter-token whitespace. -/
def jsonSkipWs (cs : List Char) : List Char :=
  cs.dropWhile fun c => c = ' ' || c = '\t' || c = '\n' || c = '\r'

/-- Digit-run parser: value of the leading digits and the rest. -/
def parseDigits (cs : List Char) : Option (Nat × List Char) :=
  let ds := cs.takeWhile Char.isDigit
  if ds.isEmpty then none
  else some (ds.foldl (fun n c => n * 10 + (c.toNat - 48)) 0, cs.drop ds.length)

/-- Escape map of JSON string literals (the `\u` form is not modelled). -/
def jsonEscape (c : Char) : Option Char :=
  if c = '"' then some '"'
  else if c = '\\' then some '\\'
  else if c = '/' then some '/'
  else if c = 'n' then some '\n'
  else if c = 't' then some '\t'
  else if c = 'r' then some '\r'
  else if c = 'b' then some '\x08'
  else if c = 'f' then some '\x0c'
  else none

/-- Body parser of a JSON string literal (after the opening quote). -/
def parseStrAux : List Char → List Char → Option (List Char × List Char)
  | _, [] => none
  | acc, '"' :: rest => some (acc.reverse, rest)
  | acc, '\\' :: c :: rest =>
    match jsonEscape c with
    | some e => parseStrAux (e :: acc) rest
    | none => none
  | acc, c :: rest => parseStrAux (c :: acc) rest

/-- Guard rejecting the number continuations of the unmodelled float
forms. -/
def numContinues (cs : List Char) : Bool :=
  match cs with
  | c :: _ => c = '.' || c = 'e' || c = 'E'
  | [] => false

mutual

/-- Value parser of the modelled JSON fragment (fuel-indexed). -/
def parseJsonVal : Nat → List Char → Option (PyVal × List Char)
  | 0, _ => none
  | fuel + 1, cs =>
    match jsonSkipWs cs with
    | 'n' :: 'u' :: 'l' :: 'l' :: rest => some (PyVal.vNone, rest)
    | 't' :: 'r' :: 'u' :: 'e' :: rest => some (PyVal.vBool true, rest)
    | 'f' :: 'a' :: 'l' :: 's' :: 'e' :: rest => some (PyVal.vBool false, rest)
    | '"' :: rest =>
      (parseStrAux [] rest).map fun p => (PyVal.vStr (String.mk p.1), p.2)
    | '[' :: rest => parseJsonArr fuel rest
    | '-' :: rest =>
      (parseDigits rest).bind fun p =>
        if numContinues p.2 then none else some (PyVal.vInt (-(p.1 : Int)), p.2)
    | rest =>
      (parseDigits rest).bind fun p =>
        if numContinues p.2 then none else some (PyVal.vInt (p.1 : Int), p.2)

/-- Array parser, positioned after the opening bracket. -/
def parseJsonArr : Nat → List Char → Option (PyVal × List Char)
  | 0, _ => none
  | fuel + 1, cs =>
    match jsonSkipWs cs with
    | ']' :: rest => some (PyVal.vList [], rest)
    | rest => parseJsonElems fuel rest []

/-- Element list parser inside an array. -/
def parseJsonElems : Nat → List Char → List PyVal → Option (PyVal × List Char)
  | 0, _, _ => none
  | fuel + 1, cs, acc =>
    (parseJsonVal fuel cs).bind fun p =>
      match jsonSkipWs p.2 with
      | ',' :: rest => parseJsonElems fuel rest (p.1 :: acc)
      | ']' :: rest => some (PyVal.vList (p.1 :: acc).reverse, rest)
      | _ => none

end

/-- Modelled `json.loads`: the whole input must be one value of the
fragment, with only whitespace around it. -/
def jsonLoads (s : String) : Option PyVal :=
  match parseJsonVal (s.length + 1) s.toList with
  | some (v, rest) => if jsonSkipWs rest = [] then some v else none
  | none => none

end Gopher

namespace Gopher

/-- Modelled Python `int(x)` on string arguments: surrounding
whitespace is stripped, an optional sign precedes a nonempty digit
run (digit-group underscores are not modelled). -/
def pyIntOfString (s : String) : Option Int :=
  let cs := (pyStrip s).toList
  let core : List Char → Option Int := fun ds =>
    if ds.isEmpty || !(ds.all Char.isDigit) then none
    else some ((ds.foldl (fun n c => n * 10 + (c.toNat - 48)) 0 : Nat) : Int)
  match cs with
  | '-' :: ds => (core ds).map (fun n => -n)
  | '+' :: ds => core ds
  | ds => core ds

/-- Modelled Python `int(x)` as used in the set comprehension:
integers pass through, booleans coerce to 0 and 1, numeric strings
convert, anything else raises (`none`). -/
def intOfPyVal : PyVal → Option Int
  | PyVal.vInt n => some n
  | PyVal.vBool b => some (if b then 1 else 0)
  | PyVal.vStr s => pyIntOfString s
  | PyVal.vNone => none
  | PyVal.vList _ => none

/-- Set comprehension `{int(x) for x in data if x is not None}` of
`_parse_joern_list_output` line 94: entries equal to `None` are
skipped, every other entry goes through `int(...)`, and a
non-convertible entry raises `ValueError` (modelled by `.error`). -/
def setOfEntries : List PyVal → Except Unit (Finset Int)
  | [] => Except.ok ∅
  | x :: rest =>
    if x.isNone then setOfEntries rest
    else
      match intOfPyVal x with
      | some n =>
        match setOfEntries rest with
        | Except.ok s => Except.ok (insert n s)
        | Except.error e => Except.error e
      | none => Except.error ()

/-- Test for `line.startswith('[') and line.endswith(']')`. -/
def bracketDelimited (l : String) : Bool :=
  l.toList.head? = some '[' && l.toList.getLast? = some ']'

/-- Reversed-scan loop of `_parse_joern_list_output` (lines 87-96):
the input list is already reversed; a bracket-delimited line is parsed,
a decode failure or a non-list parse continues the scan, and a parsed
list goes through the set comprehension.  Falling off the loop returns
the empty set. -/
def scanJoernLines : List String → Except Unit (Finset Int)
  | [] => Except.ok ∅
  | line :: rest =>
    let l := pyStrip line
    if bracketDelimited l then
      match jsonLoads l with
      | some (PyVal.vList xs) => setOfEntries xs
      | some _ => scanJoernLines rest
      | none => scanJoernLines rest
    else scanJoernLines rest

/-- Embedding of `FocusedSlicer._parse_joern_list_output`: empty raw
output short-circuits to the empty set; otherwise the stripped
output's lines are scanned from the end.  The `.error` outcome models
the `ValueError` that `int(x)` raises on a non-convertible entry,
which this function does not catch. -/
def parseJoernListOutput (raw : String) : Except Unit (Finset Int) :=
  if raw = "" then Except.ok ∅
  else scanJoernLines (pySplitLines (pyStrip raw)).reverse

/-- Embedding of `FocusedSlicer._run_slicing_strategy`: the Joern
invocation is an oracle that either returns raw text or raises; every
exception of the body — including a raising parse — is caught and
degraded to the empty set. -/
def runSlicingStrategy (queryOutcome : Except Unit String) : Finset Int :=
  match queryOutcome with
  | Except.error _ => ∅
  | Except.ok raw =>
    match parseJoernListOutput raw with
    | Except.ok s => s
    | Except.error _ => ∅

/-- Artifact fields used by the modelled operations (core/artifact.py). -/
structure BuggyArtifact where
  filePath : String
  buggyLineNo : Int
  sourceCode : String

/-- Embedding of `FocusedSlicer._construct_code_block`: an empty line
set yields the fixed fallback text; otherwise the sorted line numbers
whose 0-based index is within bounds select source lines, and
out-of-bounds numbers are dropped. -/
def constructCodeBlock (sourceLines : List String) (lineNumbers : Finset Int) : String :=
  if lineNumbers = ∅ then "(No dependencies found or slicing failed)"
  else
    let sortedLines := lineNumbers.sort (fun a b => a ≤ b)
    let maxLineIndex : Int := (sourceLines.length : Int) - 1
    joinNL (sortedLines.filterMap fun lineNo =>
      let idx := lineNo - 1
      if 0 ≤ idx ∧ idx ≤ maxLineIndex then sourceLines.get? idx.toNat else none)

/-- Embedding of `FocusedSlicer.generate_slices` for a non-empty CPG
path: the two Joern invocations are oracles; each result goes through
the strategy runner and the code-block construction over the
artifact's split source. -/
def generateSlices (artifact : BuggyArtifact)
    (ddgOutcome cdgOutcome : Except Unit String) : String × String :=
  let ddgLines := runSlicingStrategy ddgOutcome
  let cdgLines := runSlicingStrategy cdgOutcome
  let sourceCodeLines := pySplitLines artifact.sourceCode
  (constructCodeBlock sourceCodeLines ddgLines,
   constructCodeBlock sourceCodeLines cdgLines)

/-- Must-keep set of `ContextBuilder.build_mixed_context` lines 39-40:
the union of both dependency line sets with the buggy line added. -/
def mixedSliceLineSet (ddgLines cdgLines : Finset Int) (buggyLineNo : Int) : Finset Int :=
  insert buggyLineNo (ddgLines ∪ cdgLines)

end Gopher

namespace Gopher

/-- Decidable equality for `Except`, needed to evaluate parse results
on concrete inputs. -/
instance {e a : Type} [DecidableEq e] [DecidableEq a] : DecidableEq (Except e a) :=
  fun x y =>
    match x, y with
    | Except.ok u, Except.ok v => decidable_of_iff (u = v) (by simp)
    | Except.ok _, Except.error _ => isFalse (by simp)
    | Except.error _, Except.ok _ => isFalse (by simp)
    | Except.error u, Except.error v => decidable_of_iff (u = v) (by simp)

/-- Claim C9 (amended): the strategy runner returns the parsed set on
success and the empty set on a failed query or a raising parse, and —
being total — never raises to its caller; when the set comprehension
succeeds, its members are exactly the `int(...)`-converted non-`None`
entries, and one non-convertible non-`None` entry makes the
comprehension raise (so such entries are not discarded
individually). -/
theorem runSlicingStrategy_spec :
    (∀ raw s, parseJoernListOutput raw = Except.ok s →
      runSlicingStrategy (Except.ok raw) = s) ∧
    (∀ raw, parseJoernListOutput raw = Except.error () →
      runSlicingStrategy (Except.ok raw) = ∅) ∧
    (runSlicingStrategy (Except.error ()) = ∅) ∧
    (∀ xs s, setOfEntries xs = Except.ok s →
      ∀ n : Int, n ∈ s ↔ ∃ x ∈ xs, x.isNone = false ∧ intOfPyVal x = some n) ∧
    (∀ xs x, x ∈ xs → x.isNone = false → intOfPyVal x = none →
      setOfEntries xs = Except.error ()) := by
  refine ⟨?_, ?_, rfl, ?_, ?_⟩
  · intro raw s h
    simp [runSlicingStrategy, h]
  · intro raw h
    simp [runSlicingStrategy, h]
  · intro xs
    induction xs with
    | nil =>
      intro s h n
      simp only [setOfEntries] at h
      cases h
      simp
    | cons x rest ih =>
      intro s h n
      simp only [setOfEntries] at h
      by_cases hx : x.isNone
      · rw [if_pos hx] at h
        rw [ih s h n]
        constructor
        · rintro ⟨y, hy, hyn⟩
          exact ⟨y, List.mem_cons_of_mem x hy, hyn⟩
        · rintro ⟨y, hy, hyn, hyv⟩
          rcases List.mem_cons.mp hy with rfl | hy'
          · rw [hx] at hyn; cases hyn
          · exact ⟨y, hy', hyn, hyv⟩
      · rw [if_neg hx] at h
        cases hv : intOfPyVal x with
        | none => rw [hv] at h; cases h
        | some m =>
          rw [hv] at h
          cases hrest : setOfEntries rest with
          | error e => rw [hrest] at h; cases h
          | ok s' =>
            rw [hrest] at h
            cases h
            rw [Finset.mem_insert, ih s' hrest n]
            constructor
            · rintro (rfl | ⟨y, hy, hyn, hyv⟩)
              · exact ⟨x, List.mem_cons_self x rest, Bool.not_eq_true _ ▸ (by simpa using hx), hv⟩
              · exact ⟨y, List.mem_cons_of_mem x hy, hyn, hyv⟩
            · rintro ⟨y, hy, hyn, hyv⟩
              rcases List.mem_cons.mp hy with rfl | hy'
              · rw [hv] at hyv; cases hyv; exact Or.inl rfl
              · exact Or.inr ⟨y, hy', hyn, hyv⟩
  · intro xs
    induction xs with
    | nil => intro x hx; cases hx
    | cons y rest ih =>
      intro x hx hxn hxv
      rcases List.mem_cons.mp hx with rfl | hx'
      · simp only [setOfEntries]
        rw [if_neg (by rw [hxn]; simp), hxv]
      · have hrest := ih x hx' hxn hxv
        simp only [setOfEntries, hrest]
        by_cases hy : y.isNone
        · rw [if_pos hy]
        · rw [if_neg hy]
          cases hv : intOfPyVal y with
          | none => rfl
          | some m => rfl

/-- Claim C9 (amended, witness): the raw output `[2]` parses to the
set containing 2 and the strategy runner returns it. -/
theorem runSlicingStrategy_spec_witness :
    runSlicingStrategy (Except.ok "[2]") = ({2} : Finset Int) :=
  runSlicingStrategy_spec.1 "[2]" ({2} : Finset Int) (by decide)

/-- Claim C9 (counterexample): for the raw output `[1, "abc", 3]`, the
parse raises on the entry `"abc"` instead of discarding it, and the
strategy runner degrades the whole result to the empty set — the
integer entries 1 and 3 are lost rather than kept. -/
theorem parseJoernListOutput_raises_cex :
    parseJoernListOutput "[1, \"abc\", 3]" = Except.error () ∧
    runSlicingStrategy (Except.ok "[1, \"abc\", 3]") = ∅ ∧
    (1 : Int) ∉ runSlicingStrategy (Except.ok "[1, \"abc\", 3]") := by
  refine ⟨by decide, by decide, by decide⟩

end Gopher

namespace Gopher

/-- Claim C2 (amended): the must-keep set built by
`build_mixed_context` always contains the artifact's buggy line,
whatever the two dependency query results are — including when both
are empty. -/
theorem buggy_line_in_mixed_set (ddgLines cdgLines : Finset Int)
    (buggyLineNo : Int) :
    buggyLineNo ∈ mixedSliceLineSet ddgLines cdgLines buggyLineNo := by
  simp [mixedSliceLineSet]

/-- Claim C2 (counterexample): the two slice code blocks of
`generate_slices` use the raw query sets without adding the buggy
line; with buggy line 2 and a data-dependency query returning `[1]`,
the line set used for the rendering is `{1}`, which does not contain
the buggy line, and the rendered block is exactly line 1's text. -/
theorem generateSlices_omits_buggy_line_cex :
    (generateSlices ⟨"f.java", 2, "L1\nL2\nL3"⟩
        (Except.ok "[1]") (Except.ok "[1]")).1 = "L1" ∧
    runSlicingStrategy (Except.ok "[1]") = ({1} : Finset Int) ∧
    (2 : Int) ∉ runSlicingStrategy (Except.ok "[1]") := by
  have hset : runSlicingStrategy (Except.ok "[1]") = ({1} : Finset Int) := by decide
  refine ⟨?_, hset, by decide⟩
  show constructCodeBlock (pySplitLines "L1\nL2\nL3")
      (runSlicingStrategy (Except.ok "[1]")) = "L1"
  rw [hset, constructCodeBlock, if_neg (by decide), Finset.sort_singleton]
  decide

end Gopher

namespace Gopher

/-! ## Retry wrapper (`retry_with_backoff`, client.py)

The wrapped completion call is an oracle giving the outcome of each
attempt.  Python re-raises uncaught exception classes immediately;
`requests` exceptions and `LLMError` are the caught classes. -/

/-- Outcome of one invocation of the wrapped function. -/
inductive AttemptOutcome where
  | ok : String → AttemptOutcome
  | httpError : Int → AttemptOutcome
  | requestError : AttemptOutcome
  | llmError : AttemptOutcome
  | uncaughtError : AttemptOutcome
deriving DecidableEq, Repr

/-- Error finally raised by the wrapper. -/
inductive RetryError where
  | http : Int → RetryError
  | request : RetryError
  | llm : RetryError
  | uncaught : RetryError
  | reraisedNone : RetryError
deriving DecidableEq, Repr

/-- Caught exception corresponding to a retryable outcome. -/
def caughtError : AttemptOutcome → RetryError
  | AttemptOutcome.httpError st => RetryError.http st
  | AttemptOutcome.requestError => RetryError.request
  | AttemptOutcome.llmError => RetryError.llm
  | _ => RetryError.uncaught

/-- Result of running the wrapper: the value or the raised error,
the number of calls made to the wrapped function, and the sequence of
sleep durations (in units of the initial one-second delay). -/
structure RetryTrace where
  outcome : Except RetryError String
  calls : Nat
  sleeps : List ℚ
deriving DecidableEq, Repr

/-- Loop of `retry_with_backoff` (client.py lines 23-42):
`retryCount` attempts have been made so far; an `ok` outcome returns;
an HTTP error with status in `[400, 500)` other than 429 re-raises at
once; other caught errors sleep `backoff_factor ^ retry_count` (the
incremented counter minus one) and retry; an exception outside the
caught classes propagates; an exhausted loop re-raises the last
caught error (`None` when no attempt was ever made). -/
def retryGo (attempts : Nat → AttemptOutcome) (backoffFactor : ℚ)
    (maxRetries : Nat) (retryCount : Nat) (sleeps : List ℚ)
    (lastExc : Option RetryError) : RetryTrace :=
  if _h : retryCount < maxRetries then
    match attempts retryCount with
    | AttemptOutcome.ok s => ⟨Except.ok s, retryCount + 1, sleeps⟩
    | AttemptOutcome.httpError st =>
      if 400 ≤ st ∧ st < 500 ∧ st ≠ 429 then
        ⟨Except.error (RetryError.http st), retryCount + 1, sleeps⟩
      else
        retryGo attempts backoffFactor maxRetries (retryCount + 1)
          (sleeps ++ [backoffFactor ^ retryCount])
          (some (RetryError.http st))
    | AttemptOutcome.requestError =>
      retryGo attempts backoffFactor maxRetries (retryCount + 1)
        (sleeps ++ [backoffFactor ^ retryCount]) (some RetryError.request)
    | AttemptOutcome.llmError =>
      retryGo attempts backoffFactor maxRetries (retryCount + 1)
        (sleeps ++ [backoffFactor ^ retryCount]) (some RetryError.llm)
    | AttemptOutcome.uncaughtError =>
      ⟨Except.error RetryError.uncaught, retryCount + 1, sleeps⟩
  else
    ⟨Except.error (match lastExc with
      | some e => e
      | none => RetryError.reraisedNone), retryCount, sleeps⟩
termination_by maxRetries - retryCount
decreasing_by
  all_goals omega

/-- Embedding of `retry_with_backoff` applied to a wrapped call. -/
def retryWithBackoff (maxRetries : Nat) (backoffFactor : ℚ)
    (attempts : Nat → AttemptOutcome) : RetryTrace :=
  retryGo attempts backoffFactor maxRetries 0 [] none

/-- Claim C8: when the first attempt raises an HTTP error with a
status code in `[400, 500)` other than 429, the wrapper re-raises it
immediately: the wrapped call is invoked exactly once and no sleep
occurs. -/
theorem retry_client_error_immediate (maxRetries : Nat) (backoffFactor : ℚ)
    (attempts : Nat → AttemptOutcome) (st : Int)
    (hmax : 0 < maxRetries) (hfirst : attempts 0 = AttemptOutcome.httpError st)
    (h400 : 400 ≤ st) (h500 : st < 500) (h429 : st ≠ 429) :
    retryWithBackoff maxRetries backoffFactor attempts =
      ⟨Except.error (RetryError.http st), 1, []⟩ := by
  rw [retryWithBackoff, retryGo, dif_pos hmax, hfirst]
  dsimp only
  rw [if_pos ⟨h400, h500, h429⟩]

/-- Claim C8 (witness): a 404 on the first attempt with five allowed
retries propagates immediately with one call and no sleeps. -/
theorem retry_client_error_immediate_witness :
    retryWithBackoff 5 2 (fun _ => AttemptOutcome.httpError 404) =
      ⟨Except.error (RetryError.http 404), 1, []⟩ :=
  retry_client_error_immediate 5 2 (fun _ => AttemptOutcome.httpError 404) 404
    (by decide) rfl (by decide) (by decide) (by decide)

end Gopher

namespace Gopher

/-! ## Round scheduler (`GopherWorkflow.run_repair`, workflow.py)

The model covers the round loop and the file mutation protocol.  The
completion service, the file write and the test runner are oracles
(one `RoundEnv` per configured round).  Logging statements are
modelled as no-ops — logging is out of the specified scope — so the
f-string argument `self._get_round_name(round_num)` of the round
banner is not evaluated.  `self._record_patch(...)` has no definition
anywhere in the repository (only call sites); modelled from the spec
(section 4.6 step 5, "mark status ... record the failure") as pure
bookkeeping with no effect on the file state.  The CPG/analysis phase
preceding the loop only builds context strings and cannot touch the
target file; it is outside this model. -/

/-- Validation result fields used by the loop (core/patch.py). -/
structure TestResult where
  passed : Bool
  errorMessage : String
deriving DecidableEq, Repr

/-- Oracle outcomes of one round: the completion call (which the code
catches when it raises), whether `write_patch` raises, and the test
run (whose exception the code does not catch). -/
structure RoundEnv where
  llmResponse : Except Unit String
  writeRaises : Bool
  testOutcome : Except Unit TestResult
deriving DecidableEq

/-- Target-file state: current content plus the `.bak` copy. -/
structure FsState where
  fileContent : String
  backupContent : Option String
deriving DecidableEq, Repr

/-- Embedding of `FileManager.backup_file`: creates the backup only
when none exists yet. -/
def backupFile (st : FsState) : FsState :=
  match st.backupContent with
  | some _ => st
  | none => ⟨st.fileContent, some st.fileContent⟩

/-- Embedding of `FileManager.restore_file`: copies the backup over
the file when a backup exists. -/
def restoreFile (st : FsState) : FsState :=
  match st.backupContent with
  | some b => ⟨b, st.backupContent⟩
  | none => st

/-- Embedding of `FileManager.write_patch` with `create_backup=True`:
ensure a backup, then overwrite the file. -/
def writePatch (st : FsState) (newContent : String) : FsState :=
  let st2 := backupFile st
  ⟨newContent, st2.backupContent⟩

/-- Embedding of `GopherWorkflow._extract_code_block` as written in
the source: its body is `pass`, so it returns `None` for every
input. -/
def extractCodeBlock (_text : String) : Option String := none

/-- Backquote character, written by code point. -/
def backquote : Char := Char.ofNat 96

/-- Suffix after the first triple-backquote fence, when present. -/
def dropAfterFence : List Char → Option (List Char)
  | a :: b :: c :: rest =>
    if a = backquote && b = backquote && c = backquote then some rest
    else dropAfterFence (b :: c :: rest)
  | _ => none

/-- Content before the next triple-backquote fence, when present. -/
def takeUntilFence : List Char → Option (List Char)
  | a :: b :: c :: rest =>
    if a = backquote && b = backquote && c = backquote then some []
    else (takeUntilFence (b :: c :: rest)).map (fun l => a :: l)
  | _ => none

/-- Modelled from the spec: the body of
`GopherWorkflow._extract_code_block` is missing from the source (it is
the stub `pass`), so the extraction step of spec section 4.6 step 3 —
"Extract a single code block from the raw completion text" — is
modelled here: the stripped text between the first pair of fences, or
`None` when no fenced block is present. -/
def extractSpecCodeBlock (text : String) : Option String :=
  (dropAfterFence text.toList).bind fun afterOpen =>
    (takeUntilFence afterOpen).map fun body => pyStrip (String.mk body)

/-- Result of a repair session: `run_repair`'s return value or the
exception it propagates, the final file state, and the validation
result carried as feedback when the session ended. -/
structure RepairResult where
  outcome : Except Unit Bool
  state : FsState
  lastResult : Option TestResult
deriving DecidableEq, Repr

/-- Round loop of `run_repair` (workflow.py lines 92-154),
parametrised by the extraction function.  A raising completion call is
caught and the round is skipped (line 104); a missing code block
records a failing result as next feedback and skips (lines 107-110); a
raising write is caught, recorded as a failing result, and the round
is skipped (lines 127-132); a passing test restores the file and
returns `True` (lines 138-144); a failing test records the result,
restores the file and continues (lines 145-150); a raising test run
propagates out of the function with no restore.  Falling off the loop
restores the file and returns `False` (lines 152-154). -/
def runRepairLoop (extract : String → Option String) :
    List RoundEnv → FsState → Option TestResult → RepairResult
  | [], st, lastResult => ⟨Except.ok false, restoreFile st, lastResult⟩
  | env :: rest, st, lastResult =>
    match env.llmResponse with
    | Except.error _ => runRepairLoop extract rest st lastResult
    | Except.ok rawResponse =>
      match extract rawResponse with
      | none =>
        runRepairLoop extract rest st
          (some ⟨false, "LLM did not return a valid code block."⟩)
      | some codeBlock =>
        if env.writeRaises then
          runRepairLoop extract rest st (some ⟨false, "File write error."⟩)
        else
          let st2 := writePatch st codeBlock
          match env.testOutcome with
          | Except.error _ => ⟨Except.error (), st2, lastResult⟩
          | Except.ok result =>
            if result.passed then ⟨Except.ok true, restoreFile st2, some result⟩
            else runRepairLoop extract rest (restoreFile st2) (some result)

/-- Embedding of `GopherWorkflow.run_repair`: back up the target file
(line 54), then run the round loop on the initial file state, whose
content is the artifact's source. -/
def runRepair (extract : String → Option String) (artifact : BuggyArtifact)
    (envs : List RoundEnv) : RepairResult :=
  runRepairLoop extract envs (backupFile ⟨artifact.sourceCode, none⟩) none

end Gopher

namespace Gopher

/-- Restoration invariant of the round loop: when a backup of the
original content exists and no round's test run raises, the loop
terminates normally and the file ends with the original content. -/
theorem runRepairLoop_restores (extract : String → Option String) (orig : String) :
    ∀ (envs : List RoundEnv) (st : FsState) (lastResult : Option TestResult),
      st.backupContent = some orig →
      (∀ e ∈ envs, e.testOutcome ≠ Except.error ()) →
      (runRepairLoop extract envs st lastResult).state.fileContent = orig ∧
      ∃ b, (runRepairLoop extract envs st lastResult).outcome = Except.ok b := by
  intro envs
  induction envs with
  | nil =>
    intro st lastResult hb _
    refine ⟨?_, false, rfl⟩
    simp [runRepairLoop, restoreFile, hb]
  | cons env rest ih =>
    intro st lastResult hb htests
    have htests' : ∀ e ∈ rest, e.testOutcome ≠ Except.error () := by
      intro e he
      exact htests e (List.mem_cons_of_mem env he)
    rw [runRepairLoop]
    cases env.llmResponse with
    | error u => exact ih st lastResult hb htests'
    | ok rawResponse =>
      dsimp only
      cases extract rawResponse with
      | none => exact ih st _ hb htests'
      | some codeBlock =>
        dsimp only
        by_cases hw : env.writeRaises
        · rw [if_pos hw]
          exact ih st _ hb htests'
        · rw [if_neg hw]
          have hb2 : (writePatch st codeBlock).backupContent = some orig := by
            simp [writePatch, backupFile, hb]
          cases hto : env.testOutcome with
          | error u =>
            exact absurd (by cases u; exact hto)
              (htests env (List.mem_cons_self env rest))
          | ok result =>
            dsimp only
            by_cases hp : result.passed
            · rw [if_pos hp]
              refine ⟨?_, true, rfl⟩
              simp [restoreFile, hb2]
            · rw [if_neg hp]
              have hb3 : (restoreFile (writePatch st codeBlock)).backupContent = some orig := by
                simp [restoreFile, hb2]
              exact ih _ _ hb3 htests'

/-- Claim C3 (amended): on the exit paths the code reaches — success,
failed rounds, and exhaustion of all rounds — the target file is
restored to its pre-session content; but an unhandled error raised
inside a round is not such a path.  Whenever no round's test run
raises, the session ends normally with the file restored. -/
theorem runRepair_restores (extract : String → Option String)
    (artifact : BuggyArtifact) (envs : List RoundEnv)
    (htests : ∀ e ∈ envs, e.testOutcome ≠ Except.error ()) :
    (runRepair extract artifact envs).state.fileContent = artifact.sourceCode ∧
    ∃ b, (runRepair extract artifact envs).outcome = Except.ok b :=
  runRepairLoop_restores extract artifact.sourceCode envs
    (backupFile ⟨artifact.sourceCode, none⟩) none rfl htests

/-- Claim C3 (amended, witness): a session whose single round fails
its test normally ends with the file restored. -/
theorem runRepair_restores_witness :
    (runRepair extractSpecCodeBlock ⟨"f.java", 1, "ORIG\n"⟩
        [⟨Except.ok "```\nP1\n```", false, Except.ok ⟨false, "fail"⟩⟩]).state.fileContent =
      "ORIG\n" ∧
    ∃ b, (runRepair extractSpecCodeBlock ⟨"f.java", 1, "ORIG\n"⟩
        [⟨Except.ok "```\nP1\n```", false, Except.ok ⟨false, "fail"⟩⟩]).outcome =
      Except.ok b :=
  runRepair_restores extractSpecCodeBlock ⟨"f.java", 1, "ORIG\n"⟩
    [⟨Except.ok "```\nP1\n```", false, Except.ok ⟨false, "fail"⟩⟩] (by decide)

/-- Claim C3 (counterexample): when the round's test run raises after
the patch has been written, `run_repair` has no try/finally around the
loop, so the exception propagates without any restore and the session
ends with the patched content — not the pre-session content — in the
target file. -/
theorem runRepair_unhandled_error_cex :
    runRepair extractSpecCodeBlock ⟨"f.java", 1, "ORIG\n"⟩
        [⟨Except.ok "```\nPATCHED\n```", false, Except.error ()⟩] =
      ⟨Except.error (), ⟨"PATCHED", some "ORIG\n"⟩, none⟩ ∧
    "PATCHED" ≠ "ORIG\n" := by
  refine ⟨by decide, by decide⟩

/-- Claim C7: `_extract_code_block`'s body is the stub `pass`, so it
returns `None` even for a completion that does contain a fenced code
block (which the spec-modelled extractor finds); the round then takes
the no-code-block branch, synthesizes the failing validation result
`"LLM did not return a valid code block."` as next feedback, proceeds
to the next round, and the patch — although its test oracle would
pass — is never applied. -/
theorem extract_code_block_stub_cex :
    extractCodeBlock "```java\nreturn 1;\n```" = none ∧
    extractSpecCodeBlock "```java\nreturn 1;\n```" = some "java\nreturn 1;" ∧
    runRepair extractCodeBlock ⟨"f.java", 1, "ORIG\n"⟩
        [⟨Except.ok "```java\nreturn 1;\n```", false, Except.ok ⟨true, ""⟩⟩,
         ⟨Except.error (), false, Except.ok ⟨true, ""⟩⟩] =
      ⟨Except.ok false, ⟨"ORIG\n", some "ORIG\n"⟩,
       some ⟨false, "LLM did not return a valid code block."⟩⟩ := by
  refine ⟨rfl, by decide, by decide⟩

end Gopher
